import Mathlib

/-!
Shallow embedding of `src/pigan/components/generator.py` (class `Generator`).

Tensors of rank 2 are matrices over ℚ (`List (List ℚ)`); a rank-3 tensor is a
`List` of matrices.  The TensorFlow/Keras collaborators that the class uses
(noise sampler, PDE, boundary conditions, optimizer, discriminator, the
automatic-differentiation framework and the weight initializers) are abstract
structures whose fields are the functions the source calls.  Side effects of a
method are made explicit: every collaborator call and tensor operation of the
source is recorded, in source order, in a trace of `Event`s, and mutation of
`self` is explicit state passing (each method returns the new `Generator`).
-/

namespace Pigan

abbrev Mat := List (List ℚ)

/-- `tf.tile(X, [m, 1])`: stack `m` copies of the rows of `X`. -/
def tileRows (X : Mat) (m : Nat) : Mat :=
  (List.replicate m X).flatten

/-- `tf.concat([A, B], axis=1)`: rowwise concatenation. -/
def concat1 (A B : Mat) : Mat :=
  List.zipWith (fun a b => a ++ b) A B

/-- `tf.reduce_mean`: mean of all entries. -/
def reduce_mean (A : Mat) : ℚ :=
  A.flatten.sum / (A.flatten.length : ℚ)

/-- Split a flat list into consecutive chunks of size `k` (row-major reshape). -/
def chunkList (k : Nat) (xs : List α) : List (List α) :=
  if h : k = 0 ∨ xs.length = 0 then []
  else xs.take k :: chunkList k (xs.drop k)
termination_by xs.length
decreasing_by
  have h1 : k ≠ 0 := fun hk => h (Or.inl hk)
  have h3 : 0 < xs.length := by omega
  simp only [List.length_drop]
  omega

/-- `tf.reshape(A, [m, -1])`: flatten and regroup into `m` rows. -/
def reshape2 (A : Mat) (m : Nat) : Mat :=
  chunkList (A.flatten.length / m) A.flatten

/-- `tf.reshape(A, [m, n, -1])`: flatten and regroup into `m` blocks of `n` rows. -/
def reshape3 (A : Mat) (m n : Nat) : List Mat :=
  chunkList n (chunkList (A.flatten.length / (m * n)) A.flatten)

/-- A layer of a Keras `Sequential` model, with its weights where it has any. -/
inductive Layer
  | flatten : Layer
  | dense (units : Nat) (kernel : Mat) (bias : List ℚ)
      (kernel_init bias_init : String) : Layer
  | activation (name : String) : Layer
deriving DecidableEq

/-- The weight-free skeleton of a layer, for architecture statements. -/
inductive LayerSpec
  | flatten : LayerSpec
  | dense (units : Nat) : LayerSpec
  | activation (name : String) : LayerSpec
deriving DecidableEq

def Layer.spec : Layer → LayerSpec
  | .flatten => .flatten
  | .dense units _ _ _ _ => .dense units
  | .activation name => .activation name

/-- Dot product of an input row with column `j` of a kernel matrix. -/
def dotCol (row : List ℚ) (kernel : Mat) (j : Nat) : ℚ :=
  (List.zipWith (fun x w => x * w.getD j 0) row kernel).sum

/-- Forward evaluation of one layer on one row, with `act` resolving
activation names (the activation table of the framework). -/
def Layer.evalRow (act : String → ℚ → ℚ) : Layer → List ℚ → List ℚ
  | .flatten, r => r
  | .dense units kernel bias _ _, r =>
      (List.range units).map (fun j => dotCol r kernel j + bias.getD j 0)
  | .activation name, r => r.map (act name)

/-- A Keras `Sequential` model: the declared input shape and the layer stack. -/
structure Model where
  input_shape : List Nat
  layers : List Layer
deriving DecidableEq

/-- Applying the model to a batch of rows (Keras `model(x)`). -/
def Model.call (act : String → ℚ → ℚ) (m : Model) (X : Mat) : Mat :=
  X.map (fun r => m.layers.foldl (fun acc l => l.evalRow act acc) r)

/-- `model.trainable_variables`: kernel and bias tensors of each dense layer,
in layer order (the bias vector as a one-row matrix). -/
def Layer.vars : Layer → List Mat
  | .dense _ kernel bias _ _ => [kernel, [bias]]
  | _ => []

def Model.trainable_variables (m : Model) : List Mat :=
  (m.layers.map Layer.vars).flatten

/-- Writing a list of new variable values back into the layer stack, consuming
one kernel and one bias per dense layer (in-place variable assignment). -/
def setLayerVars : List Layer → List Mat → List Layer
  | [], _ => []
  | .dense u k0 b0 ki bi :: ls, vs =>
      match vs with
      | k :: b :: rest => .dense u k b.flatten ki bi :: setLayerVars ls rest
      | _ => .dense u k0 b0 ki bi :: setLayerVars ls vs
  | l :: ls, vs => l :: setLayerVars ls vs

def Model.setVars (m : Model) (vs : List Mat) : Model :=
  { m with layers := setLayerVars m.layers vs }

/-- Weight-initializer environment: resolves an initializer name and a shape
to initial values (`glorot_uniform` draws are abstract here). -/
structure InitEnv where
  kernel : String → Nat → Nat → Mat
  bias : String → Nat → List ℚ

/-- `NoiseSampler` collaborator: `sample_noise(num_points, num_samples)`. -/
structure NoiseSampler where
  sample_noise : Nat → Nat → Mat

/-- A gradient tape; it records the tensors explicitly watched. -/
structure Tape where
  watched : List Mat
deriving DecidableEq

/-- `PDE` collaborator: `evaluate_loss(terms, tape)` with
`terms = {X, u, E}`. -/
structure PDE where
  evaluate_loss : Mat → Mat → Mat → Tape → ℚ

/-- `BoundaryCondition` collaborator:
`evaluate_loss(generator_u, generator_E, tape)`. -/
structure BoundaryConditions where
  evaluate_loss : Model → Model → Tape → ℚ

/-- `Discriminator` collaborator: its `discriminator` model applied to a batch
of snapshots with a `training` flag. -/
structure Discriminator where
  discriminator : Mat → Bool → Mat

/-- A Keras optimizer with explicit slot state: `apply_gradients` maps the
state and the list of (gradient, variable) pairs to the new state and the new
variable values. -/
structure Optimizer where
  state : List ℚ
  apply_gradients : List ℚ → List (Mat × Mat) → List ℚ × List Mat

/-- The ambient differentiation framework: the activation-name table and
`tape.gradient(loss, sources)` (reverse-mode differentiation, abstract). -/
structure Framework where
  act : String → ℚ → ℚ
  gradient : ℚ → Tape → List (List Mat) → List (List Mat)

/-- One observable effect of a `Generator` method, in source order. -/
inductive Event
  | sampleNoise (numPoints numSamples : Nat)
  | tileEv (X : Mat) (m : Nat)
  | concatEv (A B : Mat)
  | watchEv (X : Mat)
  | forwardU (input : Mat) (training : Option Bool)
  | forwardE (input : Mat) (training : Option Bool)
  | forwardDisc (input : Mat) (training : Bool)
  | evalAdv (fake_output : Mat)
  | evalPDE (X u E : Mat)
  | evalBC
  | backprop (loss : ℚ)
  | applyGrads (pairs : List (Mat × Mat))
deriving DecidableEq

/-- The state held by a `Generator` instance. -/
structure Generator where
  input_shape : List Nat
  generator_u : Model
  generator_E : Model
  gen_opt : Optimizer
  noise_sampler : NoiseSampler
  pde : PDE
  boundary_conditions : BoundaryConditions

/-- `Generator._model(input_shape, dimensionality)`: the fixed layer-stack
recipe (`Input`, `Flatten`, four `Dense(128)` + `tanh` blocks, linear
`Dense(dimensionality)`); the `Input` layer is kept as the recorded
`input_shape`. -/
def mkModel (env : InitEnv) (input_shape : List Nat) (dimensionality : Nat) :
    Model :=
  let d0 := input_shape.prod
  { input_shape := input_shape
    layers :=
      [ .flatten,
        .dense 128 (env.kernel "glorot_uniform" d0 128) (env.bias "zeros" 128)
          "glorot_uniform" "zeros",
        .activation "tanh",
        .dense 128 (env.kernel "glorot_uniform" 128 128) (env.bias "zeros" 128)
          "glorot_uniform" "zeros",
        .activation "tanh",
        .dense 128 (env.kernel "glorot_uniform" 128 128) (env.bias "zeros" 128)
          "glorot_uniform" "zeros",
        .activation "tanh",
        .dense 128 (env.kernel "glorot_uniform" 128 128) (env.bias "zeros" 128)
          "glorot_uniform" "zeros",
        .activation "tanh",
        .dense dimensionality
          (env.kernel "glorot_uniform" 128 dimensionality)
          (env.bias "zeros" dimensionality) "glorot_uniform" "zeros" ] }

/-- `Generator.__init__`. -/
def Generator.init (env : InitEnv) (input_shape : List Nat) (pde : PDE)
    (boundary_conditions : BoundaryConditions) (optimizer : Optimizer)
    (noise_sampler : NoiseSampler) : Generator :=
  { input_shape := input_shape
    generator_u := mkModel env input_shape 2
    generator_E := mkModel env input_shape 1
    gen_opt := optimizer
    noise_sampler := noise_sampler
    pde := pde
    boundary_conditions := boundary_conditions }

/-- `Generator.__call__(gen_input, noise)`. -/
def Generator.call (fw : Framework) (g : Generator) (gen_input noise : Mat) :
    (Mat × Mat) × Generator × List Event :=
  let u_pred := g.generator_u.call fw.act (concat1 gen_input noise)
  let E_pred := g.generator_E.call fw.act (concat1 gen_input noise)
  ((u_pred, E_pred), g,
    [.concatEv gen_input noise,
     .forwardU (concat1 gen_input noise) none,
     .concatEv gen_input noise,
     .forwardE (concat1 gen_input noise) none])

/-- The `inputs` dictionary passed to `step`. -/
structure StepInputs where
  X_u : Mat
  X_f : Mat

/-- `Generator._loss(fake_output, tape, X=..., u=..., E=...)`: the Wasserstein
generator loss, the PDE loss and the boundary-condition loss, with the
collaborator calls recorded as events. -/
def Generator.lossFn (g : Generator) (fake_output : Mat) (tape : Tape)
    (X u E : Mat) : (ℚ × ℚ × ℚ) × List Event :=
  let wgan_gen_loss := -reduce_mean fake_output
  let pde_loss := g.pde.evaluate_loss X u E tape
  let bc_loss :=
    g.boundary_conditions.evaluate_loss g.generator_u g.generator_E tape
  ((wgan_gen_loss, pde_loss, bc_loss),
    [.evalAdv fake_output, .evalPDE X u E, .evalBC])

/-- `Generator.step(inputs, discriminator, batch_size)`. -/
def Generator.step (fw : Framework) (g : Generator) (inputs : StepInputs)
    (discriminator : Discriminator) (batch_size : Nat) :
    (ℚ × ℚ × ℚ) × Generator × List Event :=
  let num_pde := 100
  let X_u := inputs.X_u
  let X_f := inputs.X_f
  let X_u_g := tileRows X_u batch_size
  let noise_u := g.noise_sampler.sample_noise X_u.length batch_size
  let noise_f := g.noise_sampler.sample_noise X_f.length num_pde
  let u_inputs := concat1 X_u_g noise_u
  let generated_u := g.generator_u.call fw.act u_inputs
  let generated_snapshots := reshape2 generated_u batch_size
  let X_f_g := tileRows X_f num_pde
  let gen_tape : Tape := { watched := [X_f_g] }
  let u_f_inputs := concat1 X_f_g noise_f
  let generated_f_u := g.generator_u.call fw.act u_f_inputs
  let E_f_inputs := concat1 X_f_g noise_f
  let generated_f_E := g.generator_E.call fw.act E_f_inputs
  let fake_output := discriminator.discriminator generated_snapshots true
  let lossRes := g.lossFn fake_output gen_tape X_f_g generated_f_u generated_f_E
  let gen_loss := lossRes.1.1
  let pde_loss := lossRes.1.2.1
  let bc_loss := lossRes.1.2.2
  let total_loss := gen_loss + pde_loss + bc_loss
  let grads := fw.gradient total_loss gen_tape
      [g.generator_u.trainable_variables, g.generator_E.trainable_variables]
  let pairs_u := List.zip (grads.getD 0 []) g.generator_u.trainable_variables
  let res_u := g.gen_opt.apply_gradients g.gen_opt.state pairs_u
  let pairs_E := List.zip (grads.getD 1 []) g.generator_E.trainable_variables
  let res_E := g.gen_opt.apply_gradients res_u.1 pairs_E
  ((gen_loss, pde_loss, bc_loss),
    { g with
        generator_u := g.generator_u.setVars res_u.2
        generator_E := g.generator_E.setVars res_E.2
        gen_opt := { g.gen_opt with state := res_E.1 } },
    [.tileEv X_u batch_size,
     .sampleNoise X_u.length batch_size,
     .sampleNoise X_f.length num_pde,
     .concatEv X_u_g noise_u,
     .forwardU u_inputs (some true),
     .tileEv X_f num_pde,
     .watchEv X_f_g,
     .concatEv X_f_g noise_f,
     .forwardU u_f_inputs (some true),
     .concatEv X_f_g noise_f,
     .forwardE E_f_inputs (some true),
     .forwardDisc generated_snapshots true]
    ++ lossRes.2
    ++ [.backprop total_loss, .applyGrads pairs_u, .applyGrads pairs_E])

/-- `Generator.generate(X, num_samples)`. -/
def Generator.generate (fw : Framework) (g : Generator) (X : Mat)
    (num_samples : Nat) : (List Mat × List Mat) × Generator × List Event :=
  let noise := g.noise_sampler.sample_noise X.length num_samples
  let X_g := tileRows X num_samples
  let u_inputs := concat1 X_g noise
  let generated_u := g.generator_u.call fw.act u_inputs
  let u_samples := reshape3 generated_u num_samples X.length
  let E_inputs := concat1 X_g noise
  let generated_E := g.generator_E.call fw.act E_inputs
  let E_samples := reshape3 generated_E num_samples X.length
  ((u_samples, E_samples), g,
    [.sampleNoise X.length num_samples,
     .tileEv X num_samples,
     .concatEv X_g noise,
     .forwardU u_inputs (some false),
     .concatEv X_g noise,
     .forwardE E_inputs (some false)])

/-- Filesystem paths as component lists (`pathlib.Path.joinpath` appends a
component); files hold serialized models, and h5 serialization round-trips
architecture and weights. -/
abbrev Path := List String

def joinpath (d : Path) (name : String) : Path := d ++ [name]

abbrev FileSystem := List (Path × Model)

def fsWrite (fs : FileSystem) (p : Path) (m : Model) : FileSystem :=
  (p, m) :: fs

def fsRead : FileSystem → Path → Option Model
  | [], _ => none
  | (q, m) :: rest, p => if q = p then some m else fsRead rest p

/-- `Generator.save(save_dir)`: writes `generator_u.h5` then `generator_E.h5`
into the directory. -/
def Generator.save (g : Generator) (save_dir : Path) (fs : FileSystem) :
    FileSystem :=
  fsWrite (fsWrite fs (joinpath save_dir "generator_u.h5") g.generator_u)
    (joinpath save_dir "generator_E.h5") g.generator_E

/-- `Generator.load(model_dir)`: replaces the two models with the ones read
from the directory (`load_model` fails if a file is missing). -/
def Generator.load (g : Generator) (model_dir : Path) (fs : FileSystem) :
    Option Generator :=
  match fsRead fs (joinpath model_dir "generator_u.h5"),
        fsRead fs (joinpath model_dir "generator_E.h5") with
  | some mu, some mE =>
      some { g with generator_u := mu, generator_E := mE }
  | _, _ => none

/-- Shape predicate for a rank-3 tensor value. -/
def HasShape3 (S : List Mat) (m n d : Nat) : Prop :=
  S.length = m ∧ ∀ B ∈ S, B.length = n ∧ ∀ r ∈ B, r.length = d

/-- Concrete collaborators used to exhibit satisfiable hypotheses. -/
def zeroInit : InitEnv :=
  ⟨fun _ i o => List.replicate i (List.replicate o 0), fun _ o => List.replicate o 0⟩

def idFw : Framework := ⟨fun _ x => x, fun _ _ _ => []⟩

def constPDE : PDE := ⟨fun _ _ _ _ => 0⟩

def constBC : BoundaryConditions := ⟨fun _ _ _ => 0⟩

def keepOpt : Optimizer := ⟨[], fun s ps => (s, ps.map (fun p => p.2))⟩

def repNoise : NoiseSampler := ⟨fun n m => List.replicate (n * m) [0]⟩

def g0 : Generator := Generator.init zeroInit [1] constPDE constBC keepOpt repNoise

def inputs0 : StepInputs := ⟨[[0]], [[0]]⟩

def disc0 : Discriminator := ⟨fun s _ => s⟩

theorem chunkList_nil (k : Nat) : chunkList k ([] : List α) = [] := by
  rw [chunkList]
  simp

theorem chunkList_cons_of (k : Nat) (xs : List α) (hk : k ≠ 0) (hx : xs ≠ []) :
    chunkList k xs = xs.take k :: chunkList k (xs.drop k) := by
  rw [chunkList]
  simp [hk, hx]

theorem chunkList_shape (k : Nat) (hk : 0 < k) :
    ∀ (m : Nat) (xs : List α), xs.length = m * k →
      (chunkList k xs).length = m ∧ ∀ r ∈ chunkList k xs, r.length = k := by
  intro m
  induction m with
  | zero =>
    intro xs h
    have hx : xs = [] := List.eq_nil_of_length_eq_zero (by simpa using h)
    subst hx
    simp [chunkList_nil]
  | succ n ih =>
    intro xs h
    have h' : xs.length = n * k + k := by rw [h, Nat.succ_mul]
    have hx : xs ≠ [] := by
      intro hx
      subst hx
      simp at h'
      omega
    rw [chunkList_cons_of k xs (by omega) hx]
    have htake : (xs.take k).length = k := by
      rw [List.length_take]
      omega
    have hdrop : (xs.drop k).length = n * k := by
      rw [List.length_drop]
      omega
    obtain ⟨ih1, ih2⟩ := ih (xs.drop k) hdrop
    refine ⟨by simp [ih1], ?_⟩
    intro r hr
    rcases List.mem_cons.mp hr with hr1 | hr2
    · rw [hr1]; exact htake
    · exact ih2 r hr2

theorem chunkList_mem_mem_aux (n : Nat) : ∀ (k : Nat) (xs : List α), xs.length ≤ n →
    ∀ r ∈ chunkList k xs, ∀ a ∈ r, a ∈ xs := by
  induction n with
  | zero =>
    intro k xs h r hr a ha
    have hx : xs = [] := List.eq_nil_of_length_eq_zero (by omega)
    subst hx
    simp [chunkList_nil] at hr
  | succ n ih =>
    intro k xs h r hr a ha
    by_cases hk : k = 0
    · subst hk
      rw [chunkList] at hr
      simp at hr
    by_cases hx : xs = []
    · subst hx
      simp [chunkList_nil] at hr
    rw [chunkList_cons_of k xs hk hx] at hr
    rcases List.mem_cons.mp hr with hr1 | hr2
    · subst hr1
      exact List.take_subset k xs ha
    · have hlen : (xs.drop k).length ≤ n := by
        have := List.length_pos.mpr hx
        simp only [List.length_drop]
        omega
      exact List.drop_subset k xs (ih k (xs.drop k) hlen r hr2 a ha)

theorem chunkList_mem_mem (k : Nat) (xs : List α) :
    ∀ r ∈ chunkList k xs, ∀ a ∈ r, a ∈ xs :=
  chunkList_mem_mem_aux xs.length k xs (Nat.le_refl _)

theorem tileRows_length (X : Mat) (m : Nat) :
    (tileRows X m).length = m * X.length := by
  simp [tileRows, List.length_flatten, List.map_replicate, List.sum_replicate,
    smul_eq_mul]

theorem concat1_length (A B : Mat) :
    (concat1 A B).length = min A.length B.length := by
  simp [concat1]


theorem Model.call_length (act : String → ℚ → ℚ) (mo : Model) (X : Mat) :
    (mo.call act X).length = X.length :=
  List.length_map X _

theorem call_last_dense_rows (act : String → ℚ → ℚ) (mo : Model)
    (L : List Layer) (u : Nat) (k : Mat) (b : List ℚ) (ki bi : String)
    (h : mo.layers = L ++ [Layer.dense u k b ki bi]) (X : Mat) :
    ∀ r ∈ mo.call act X, r.length = u := by
  intro r hr
  obtain ⟨r0, hr0, rfl⟩ := List.mem_map.mp hr
  rw [h, List.foldl_append]
  simp [Layer.evalRow]

theorem reshape3_shape (A : Mat) (m n d : Nat) (hn : 0 < n)
    (hd : 0 < d) (hmn : 0 < m * n) (hlen : A.length = m * n)
    (hrow : ∀ r ∈ A, r.length = d) :
    HasShape3 (reshape3 A m n) m n d := by
  have hflat : A.flatten.length = m * n * d := by
    rw [List.length_flatten]
    have hmap : A.map List.length = List.replicate A.length d := by
      refine List.eq_replicate_iff.mpr ⟨by simp, ?_⟩
      intro b hb
      obtain ⟨r, hr, rfl⟩ := List.mem_map.mp hb
      exact hrow r hr
    rw [hmap, List.sum_replicate, smul_eq_mul, hlen]
  have hq : A.flatten.length / (m * n) = d := by
    rw [hflat]
    exact Nat.mul_div_cancel_left d hmn
  obtain ⟨h1len, h1rows⟩ := chunkList_shape d hd (m * n) A.flatten hflat
  obtain ⟨h2len, h2rows⟩ :=
    chunkList_shape n hn m (chunkList d A.flatten) (by rw [h1len])
  unfold reshape3 HasShape3
  rw [hq]
  refine ⟨h2len, ?_⟩
  intro B hB
  refine ⟨h2rows B hB, ?_⟩
  intro r hr
  exact h1rows r (chunkList_mem_mem n (chunkList d A.flatten) B hB r hr)

theorem joinpath_ne_of_ne (d : Path) (a b : String) (h : a ≠ b) :
    joinpath d a ≠ joinpath d b := by
  simp [joinpath, h]


/-- Claim C4: the constructor builds exactly two feed-forward Sequential
networks by the one fixed layer-stack recipe: each records the given input
shape, flattens, applies four Dense layers of 128 units each followed by tanh
activations, and ends with a linear Dense output layer; `generator_u` is built
with output dimensionality 2 and `generator_E` with output dimensionality 1. -/
theorem c4_constructor_fixed_recipe (env : InitEnv) (shape : List Nat)
    (pde : PDE) (bc : BoundaryConditions) (opt : Optimizer)
    (ns : NoiseSampler) :
    (Generator.init env shape pde bc opt ns).generator_u = mkModel env shape 2 ∧
    (Generator.init env shape pde bc opt ns).generator_E = mkModel env shape 1 ∧
    (∀ d, (mkModel env shape d).input_shape = shape ∧
      (mkModel env shape d).layers.map Layer.spec =
        [.flatten, .dense 128, .activation "tanh", .dense 128,
         .activation "tanh", .dense 128, .activation "tanh", .dense 128,
         .activation "tanh", .dense d]) :=
  ⟨rfl, rfl, fun _ => ⟨rfl, rfl⟩⟩

/-- Claim C7: in `__call__` and in `generate`, `generator_u` and `generator_E`
are evaluated on the identical input tensor, the same coordinates concatenated
with the same single noise draw, so every generated (u, E) pair comes from one
shared noise realization. -/
theorem c7_joint_generation_shared_noise (fw : Framework) (g : Generator)
    (gen_input noise X : Mat) (m : Nat) :
    (Generator.call fw g gen_input noise).1 =
      (g.generator_u.call fw.act (concat1 gen_input noise),
       g.generator_E.call fw.act (concat1 gen_input noise)) ∧
    (Generator.call fw g gen_input noise).2.2 =
      [.concatEv gen_input noise, .forwardU (concat1 gen_input noise) none,
       .concatEv gen_input noise, .forwardE (concat1 gen_input noise) none] ∧
    (Generator.generate fw g X m).1 =
      (reshape3 (g.generator_u.call fw.act
          (concat1 (tileRows X m) (g.noise_sampler.sample_noise X.length m)))
          m X.length,
       reshape3 (g.generator_E.call fw.act
          (concat1 (tileRows X m) (g.noise_sampler.sample_noise X.length m)))
          m X.length) ∧
    Event.forwardU
        (concat1 (tileRows X m) (g.noise_sampler.sample_noise X.length m))
        (some false) ∈ (Generator.generate fw g X m).2.2 ∧
    Event.forwardE
        (concat1 (tileRows X m) (g.noise_sampler.sample_noise X.length m))
        (some false) ∈ (Generator.generate fw g X m).2.2 := by
  refine ⟨rfl, rfl, rfl, ?_, ?_⟩ <;> simp [Generator.generate]

/-- Claim C9: the triple returned by `step` is computed from the weights in
effect at entry: it equals `_loss` evaluated on forward passes of the original
`generator_u`/`generator_E`, and it does not depend on the optimizer or on the
gradients that the update applies afterwards. -/
theorem c9_step_returns_preupdate_losses (fw : Framework) (g : Generator)
    (inputs : StepInputs) (disc : Discriminator) (bs : Nat) :
    (Generator.step fw g inputs disc bs).1 =
      (g.lossFn
        (disc.discriminator
          (reshape2
            (g.generator_u.call fw.act
              (concat1 (tileRows inputs.X_u bs)
                (g.noise_sampler.sample_noise inputs.X_u.length bs))) bs) true)
        ⟨[tileRows inputs.X_f 100]⟩
        (tileRows inputs.X_f 100)
        (g.generator_u.call fw.act
          (concat1 (tileRows inputs.X_f 100)
            (g.noise_sampler.sample_noise inputs.X_f.length 100)))
        (g.generator_E.call fw.act
          (concat1 (tileRows inputs.X_f 100)
            (g.noise_sampler.sample_noise inputs.X_f.length 100)))).1 ∧
    ∀ (a : String → ℚ → ℚ)
      (gr1 gr2 : ℚ → Tape → List (List Mat) → List (List Mat))
      (o1 o2 : Optimizer),
      (Generator.step ⟨a, gr1⟩ { g with gen_opt := o1 } inputs disc bs).1 =
      (Generator.step ⟨a, gr2⟩ { g with gen_opt := o2 } inputs disc bs).1 :=
  ⟨rfl, fun _ _ _ _ _ => rfl⟩

/-- Claim C5: `save` writes the two models to `generator_u.h5` and
`generator_E.h5` in the given directory, and a subsequent `load` from that
directory restores `generator_u` and `generator_E` so that the restored
networks compute the same outputs as the saved ones on every input. -/
theorem c5_save_load_roundtrip (g gl : Generator) (dir : Path)
    (fs : FileSystem) :
    fsRead (Generator.save gl dir fs) (joinpath dir "generator_u.h5") =
      some gl.generator_u ∧
    fsRead (Generator.save gl dir fs) (joinpath dir "generator_E.h5") =
      some gl.generator_E ∧
    Generator.load g dir (Generator.save gl dir fs) =
      some { g with
              generator_u := gl.generator_u
              generator_E := gl.generator_E } ∧
    ∀ (act : String → ℚ → ℚ) (X : Mat),
      ({ g with
          generator_u := gl.generator_u
          generator_E := gl.generator_E } : Generator).generator_u.call act X =
        gl.generator_u.call act X ∧
      ({ g with
          generator_u := gl.generator_u
          generator_E := gl.generator_E } : Generator).generator_E.call act X =
        gl.generator_E.call act X := by
  have hne : joinpath dir "generator_E.h5" ≠ joinpath dir "generator_u.h5" :=
    joinpath_ne_of_ne dir _ _ (by decide)
  refine ⟨?_, ?_, ?_, fun act X => ⟨rfl, rfl⟩⟩
  · simp [Generator.save, fsWrite, fsRead, hne]
  · simp [Generator.save, fsWrite, fsRead]
  · simp [Generator.load, Generator.save, fsWrite, fsRead, hne]

/-- Claim C10: `__call__` and `generate` leave the generator state unchanged;
`step` changes only the two models (writing back exactly the variable values
produced by `gen_opt.apply_gradients` on the back-propagated gradients) and
the optimizer state, and `load` replaces only the two model objects. -/
theorem c10_frame_effects (fw : Framework) (g : Generator)
    (gen_input noise X : Mat) (m : Nat) (inputs : StepInputs)
    (disc : Discriminator) (bs : Nat) (dir : Path) (fs : FileSystem)
    (gl : Generator) :
    (Generator.call fw g gen_input noise).2.1 = g ∧
    (Generator.generate fw g X m).2.1 = g ∧
    (Generator.step fw g inputs disc bs).2.1 =
      (let X_f_g := tileRows inputs.X_f 100
       let noise_f := g.noise_sampler.sample_noise inputs.X_f.length 100
       let u_inputs := concat1 (tileRows inputs.X_u bs)
           (g.noise_sampler.sample_noise inputs.X_u.length bs)
       let fake_output := disc.discriminator
           (reshape2 (g.generator_u.call fw.act u_inputs) bs) true
       let total_loss := -reduce_mean fake_output +
           g.pde.evaluate_loss X_f_g
             (g.generator_u.call fw.act (concat1 X_f_g noise_f))
             (g.generator_E.call fw.act (concat1 X_f_g noise_f)) ⟨[X_f_g]⟩ +
           g.boundary_conditions.evaluate_loss g.generator_u g.generator_E
             ⟨[X_f_g]⟩
       let grads := fw.gradient total_loss ⟨[X_f_g]⟩
           [g.generator_u.trainable_variables, g.generator_E.trainable_variables]
       let res_u := g.gen_opt.apply_gradients g.gen_opt.state
           (List.zip (grads.getD 0 []) g.generator_u.trainable_variables)
       let res_E := g.gen_opt.apply_gradients res_u.1
           (List.zip (grads.getD 1 []) g.generator_E.trainable_variables)
       { g with
           generator_u := g.generator_u.setVars res_u.2
           generator_E := g.generator_E.setVars res_E.2
           gen_opt := { g.gen_opt with state := res_E.1 } }) ∧
    Generator.load g dir (Generator.save gl dir fs) =
      some { g with
              generator_u := gl.generator_u
              generator_E := gl.generator_E } := by
  have hne : joinpath dir "generator_E.h5" ≠ joinpath dir "generator_u.h5" :=
    joinpath_ne_of_ne dir _ _ (by decide)
  refine ⟨rfl, rfl, rfl, ?_⟩
  simp [Generator.load, Generator.save, fsWrite, fsRead, hne]

/-- Claim C1: a call to `step` performs, in source order: tiling and noise
sampling for the data and collocation coordinates via
`noise_sampler.sample_noise`, concatenation of the tiled coordinates with the
noise along axis 1, forward passes of `generator_u` on the data and
collocation inputs and of `generator_E` on the collocation inputs, evaluation
of the adversarial, PDE-residual and boundary-condition loss terms,
back-propagation of their total through the gradient tape, and application of
the resulting gradients to the trainable variables of `generator_u` and
`generator_E` via `gen_opt`. -/
theorem c1_step_pipeline_order (fw : Framework) (g : Generator)
    (inputs : StepInputs) (disc : Discriminator) (batch_size : Nat) :
    (Generator.step fw g inputs disc batch_size).2.2 =
      (let X_u_g := tileRows inputs.X_u batch_size
       let noise_u := g.noise_sampler.sample_noise inputs.X_u.length batch_size
       let noise_f := g.noise_sampler.sample_noise inputs.X_f.length 100
       let u_inputs := concat1 X_u_g noise_u
       let snapshots := reshape2 (g.generator_u.call fw.act u_inputs) batch_size
       let X_f_g := tileRows inputs.X_f 100
       let u_f_inputs := concat1 X_f_g noise_f
       let gen_f_u := g.generator_u.call fw.act u_f_inputs
       let gen_f_E := g.generator_E.call fw.act u_f_inputs
       let fake_output := disc.discriminator snapshots true
       let gen_loss := -reduce_mean fake_output
       let pde_loss := g.pde.evaluate_loss X_f_g gen_f_u gen_f_E ⟨[X_f_g]⟩
       let bc_loss := g.boundary_conditions.evaluate_loss g.generator_u
           g.generator_E ⟨[X_f_g]⟩
       let grads := fw.gradient (gen_loss + pde_loss + bc_loss) ⟨[X_f_g]⟩
           [g.generator_u.trainable_variables, g.generator_E.trainable_variables]
       [Event.tileEv inputs.X_u batch_size,
        Event.sampleNoise inputs.X_u.length batch_size,
        Event.sampleNoise inputs.X_f.length 100,
        Event.concatEv X_u_g noise_u,
        Event.forwardU u_inputs (some true),
        Event.tileEv inputs.X_f 100,
        Event.watchEv X_f_g,
        Event.concatEv X_f_g noise_f,
        Event.forwardU u_f_inputs (some true),
        Event.concatEv X_f_g noise_f,
        Event.forwardE u_f_inputs (some true),
        Event.forwardDisc snapshots true,
        Event.evalAdv fake_output,
        Event.evalPDE X_f_g gen_f_u gen_f_E,
        Event.evalBC,
        Event.backprop (gen_loss + pde_loss + bc_loss),
        Event.applyGrads
          (List.zip (grads.getD 0 []) g.generator_u.trainable_variables),
        Event.applyGrads
          (List.zip (grads.getD 1 []) g.generator_E.trainable_variables)]) :=
  rfl

/-- Claim C2: the objective back-propagated by `step` is the sum of exactly
three terms: the Wasserstein generator loss (the negated mean of the
discriminator output on the generated snapshots), the PDE-residual loss from
`pde.evaluate_loss`, and the boundary-condition loss from
`boundary_conditions.evaluate_loss`; and `step` returns this triple. -/
theorem c2_step_loss_terms (fw : Framework) (g : Generator)
    (inputs : StepInputs) (disc : Discriminator) (bs : Nat) :
    (Generator.step fw g inputs disc bs).1 =
      (-reduce_mean
          (disc.discriminator
            (reshape2
              (g.generator_u.call fw.act
                (concat1 (tileRows inputs.X_u bs)
                  (g.noise_sampler.sample_noise inputs.X_u.length bs))) bs)
            true),
       g.pde.evaluate_loss (tileRows inputs.X_f 100)
         (g.generator_u.call fw.act
           (concat1 (tileRows inputs.X_f 100)
             (g.noise_sampler.sample_noise inputs.X_f.length 100)))
         (g.generator_E.call fw.act
           (concat1 (tileRows inputs.X_f 100)
             (g.noise_sampler.sample_noise inputs.X_f.length 100)))
         ⟨[tileRows inputs.X_f 100]⟩,
       g.boundary_conditions.evaluate_loss g.generator_u g.generator_E
         ⟨[tileRows inputs.X_f 100]⟩) ∧
    Event.backprop
        (-reduce_mean
            (disc.discriminator
              (reshape2
                (g.generator_u.call fw.act
                  (concat1 (tileRows inputs.X_u bs)
                    (g.noise_sampler.sample_noise inputs.X_u.length bs))) bs)
              true) +
          g.pde.evaluate_loss (tileRows inputs.X_f 100)
            (g.generator_u.call fw.act
              (concat1 (tileRows inputs.X_f 100)
                (g.noise_sampler.sample_noise inputs.X_f.length 100)))
            (g.generator_E.call fw.act
              (concat1 (tileRows inputs.X_f 100)
                (g.noise_sampler.sample_noise inputs.X_f.length 100)))
            ⟨[tileRows inputs.X_f 100]⟩ +
          g.boundary_conditions.evaluate_loss g.generator_u g.generator_E
            ⟨[tileRows inputs.X_f 100]⟩)
      ∈ (Generator.step fw g inputs disc bs).2.2 := by
  refine ⟨rfl, ?_⟩
  simp [Generator.step, Generator.lossFn]

/-- Claim C6: the PDE constraint is enforced at the collocation coordinates:
the tiled collocation inputs are watched by the gradient tape and passed,
together with the u and E values generated at exactly those inputs, to
`pde.evaluate_loss` along with that tape. -/
theorem c6_pde_loss_at_watched_collocation (fw : Framework) (g : Generator)
    (inputs : StepInputs) (disc : Discriminator) (bs : Nat) :
    (Generator.step fw g inputs disc bs).1.2.1 =
      g.pde.evaluate_loss (tileRows inputs.X_f 100)
        (g.generator_u.call fw.act
          (concat1 (tileRows inputs.X_f 100)
            (g.noise_sampler.sample_noise inputs.X_f.length 100)))
        (g.generator_E.call fw.act
          (concat1 (tileRows inputs.X_f 100)
            (g.noise_sampler.sample_noise inputs.X_f.length 100)))
        ⟨[tileRows inputs.X_f 100]⟩ ∧
    tileRows inputs.X_f 100 ∈ (Tape.mk [tileRows inputs.X_f 100]).watched ∧
    Event.watchEv (tileRows inputs.X_f 100)
      ∈ (Generator.step fw g inputs disc bs).2.2 := by
  refine ⟨rfl, by simp, ?_⟩
  simp [Generator.step, Generator.lossFn]

/-- Claim C8: `step` uses the fixed constant 100 for the collocation branch:
`X_f` is tiled exactly 100 times and `noise_f` is sampled with count 100,
independently of `batch_size`, which governs the data branch (`X_u` tiling,
data-noise count) only; in particular the PDE loss is the same for any two
batch sizes. -/
theorem c8_collocation_count_fixed (fw : Framework) (g : Generator)
    (inputs : StepInputs) (disc : Discriminator) (bs : Nat) :
    Event.tileEv inputs.X_f 100 ∈ (Generator.step fw g inputs disc bs).2.2 ∧
    Event.sampleNoise inputs.X_f.length 100
      ∈ (Generator.step fw g inputs disc bs).2.2 ∧
    Event.tileEv inputs.X_u bs ∈ (Generator.step fw g inputs disc bs).2.2 ∧
    Event.sampleNoise inputs.X_u.length bs
      ∈ (Generator.step fw g inputs disc bs).2.2 ∧
    ∀ bs2 : Nat,
      (Generator.step fw g inputs disc bs).1.2.1 =
        (Generator.step fw g inputs disc bs2).1.2.1 := by
  refine ⟨?_, ?_, ?_, ?_, fun _ => rfl⟩ <;> simp [Generator.step, Generator.lossFn]


/-- Claim C3: for a coordinate array `X` with `n` rows and positive
`num_samples = m`, `generate` samples noise once via
`noise_sampler.sample_noise(n, m)`, tiles `X` `m` times, runs both networks
with `training=False` on the concatenated (coordinates, noise) input, and
returns `(u_samples, E_samples)` of shapes `[m, n, 2]` and `[m, n, 1]` (the
networks ending in Dense layers of 2 and 1 units, as the constructor builds
them). -/
theorem c3_generate_samples_and_shapes (fw : Framework) (g : Generator)
    (X : Mat) (m : Nat)
    (Lu : List Layer) (ku : Mat) (bu : List ℚ) (kiu biu : String)
    (LE : List Layer) (kE : Mat) (bE : List ℚ) (kiE biE : String)
    (hu : g.generator_u.layers = Lu ++ [Layer.dense 2 ku bu kiu biu])
    (hE : g.generator_E.layers = LE ++ [Layer.dense 1 kE bE kiE biE])
    (hm : 0 < m) (hn : 0 < X.length)
    (hnoise : (g.noise_sampler.sample_noise X.length m).length =
      X.length * m) :
    (Generator.generate fw g X m).2.2 =
      [Event.sampleNoise X.length m,
       Event.tileEv X m,
       Event.concatEv (tileRows X m) (g.noise_sampler.sample_noise X.length m),
       Event.forwardU
         (concat1 (tileRows X m) (g.noise_sampler.sample_noise X.length m))
         (some false),
       Event.concatEv (tileRows X m) (g.noise_sampler.sample_noise X.length m),
       Event.forwardE
         (concat1 (tileRows X m) (g.noise_sampler.sample_noise X.length m))
         (some false)] ∧
    HasShape3 (Generator.generate fw g X m).1.1 m X.length 2 ∧
    HasShape3 (Generator.generate fw g X m).1.2 m X.length 1 := by
  have hlen : (concat1 (tileRows X m)
      (g.noise_sampler.sample_noise X.length m)).length = m * X.length := by
    rw [concat1_length, tileRows_length, hnoise, Nat.mul_comm X.length m,
      Nat.min_self]
  refine ⟨rfl, ?_, ?_⟩
  · show HasShape3
      (reshape3
        (g.generator_u.call fw.act
          (concat1 (tileRows X m) (g.noise_sampler.sample_noise X.length m)))
        m X.length) m X.length 2
    exact reshape3_shape _ m X.length 2 hn (by norm_num) (Nat.mul_pos hm hn)
      (by rw [Model.call_length, hlen])
      (call_last_dense_rows fw.act g.generator_u Lu 2 ku bu kiu biu hu _)
  · show HasShape3
      (reshape3
        (g.generator_E.call fw.act
          (concat1 (tileRows X m) (g.noise_sampler.sample_noise X.length m)))
        m X.length) m X.length 1
    exact reshape3_shape _ m X.length 1 hn (by norm_num) (Nat.mul_pos hm hn)
      (by rw [Model.call_length, hlen])
      (call_last_dense_rows fw.act g.generator_E LE 1 kE bE kiE biE hE _)

/-- Witness for C3: the hypotheses hold and the conclusion follows for a
concrete generator, a one-point 1D coordinate array and one sample. -/
theorem c3_generate_samples_and_shapes_witness :
    (g0.generator_u.layers =
      (mkModel zeroInit [1] 2).layers.dropLast ++
        [Layer.dense 2 (zeroInit.kernel "glorot_uniform" 128 2)
          (zeroInit.bias "zeros" 2) "glorot_uniform" "zeros"]) ∧
    (g0.generator_E.layers =
      (mkModel zeroInit [1] 1).layers.dropLast ++
        [Layer.dense 1 (zeroInit.kernel "glorot_uniform" 128 1)
          (zeroInit.bias "zeros" 1) "glorot_uniform" "zeros"]) ∧
    0 < 1 ∧ 0 < ([[(0 : ℚ)]] : Mat).length ∧
    (g0.noise_sampler.sample_noise ([[(0 : ℚ)]] : Mat).length 1).length =
      ([[(0 : ℚ)]] : Mat).length * 1 ∧
    HasShape3 (Generator.generate idFw g0 [[(0 : ℚ)]] 1).1.1 1
      ([[(0 : ℚ)]] : Mat).length 2 ∧
    HasShape3 (Generator.generate idFw g0 [[(0 : ℚ)]] 1).1.2 1
      ([[(0 : ℚ)]] : Mat).length 1 := by
  have main := c3_generate_samples_and_shapes idFw g0 [[(0 : ℚ)]] 1
    (mkModel zeroInit [1] 2).layers.dropLast
    (zeroInit.kernel "glorot_uniform" 128 2) (zeroInit.bias "zeros" 2)
    "glorot_uniform" "zeros"
    (mkModel zeroInit [1] 1).layers.dropLast
    (zeroInit.kernel "glorot_uniform" 128 1) (zeroInit.bias "zeros" 1)
    "glorot_uniform" "zeros"
    rfl rfl (by decide) (by decide) rfl
  exact ⟨rfl, rfl, by decide, by decide, rfl, main.2.1, main.2.2⟩


end Pigan
